import Mathlib

/-!
Verification development for the course-blocks API endpoint
(`lms/djangoapps/course_api/blocks/views.py`, `CourseBlocks.list`).

The endpoint body (`list`) is embedded directly from the source.  The
collaborators it calls — `BlockListGetForm`, `BlocksAPITransformer`,
`get_course_blocks` and the two serializers — are repository code that is
not part of the provided sources; they are modelled from the specification
(each such definition carries a doc comment starting `Modelled from the
spec:`).
-/

namespace CourseBlocksApi

/-- A Django `QueryDict`: an ordered multi-valued mapping from parameter
names to string values.  `update` appends entries; item access returns the
LAST value for a key, as Django's `QueryDict.__getitem__` does. -/
abbrev QueryDict := List (String × String)

/-- All values attached to a key, in order. -/
def qdValues (qd : QueryDict) (k : String) : List String :=
  (qd.filter (fun p => p.1 == k)).map (fun p => p.2)

/-- Item access: the last value for the key, if any (Django `QueryDict`
semantics). -/
def qdGet (qd : QueryDict) (k : String) : Option String :=
  (qdValues qd k).getLast?

/-- The requesting user, an opaque identity taken from the session layer. -/
structure User where
  name : String
deriving DecidableEq, Repr

/-- Lines 124-125 of views.py: `requested_params = request.GET.copy()`
followed by `requested_params.update({'usage_key': usage_key_string})`.
`QueryDict.update` appends the pair, so a `usage_key` already present in
the query string is shadowed (last value wins) rather than replaced. -/
def requestedParams (get : QueryDict) (usage_key_string : String) : QueryDict :=
  get ++ [("usage_key", usage_key_string)]

/-- Return type of the response, `dict` or `list`. -/
inductive ReturnType where
  | dict
  | list
deriving DecidableEq, Repr

/-- Numeric value of a decimal digit character, if it is one. -/
def digitVal (c : Char) : Option Nat :=
  if '0' ≤ c ∧ c ≤ '9' then some (c.toNat - 48) else none

/-- Decimal parsing over a character list (most significant first). -/
def parseNatAux : List Char → Nat → Option Nat
  | [], acc => some acc
  | c :: rest, acc =>
    match digitVal c with
    | some d => parseNatAux rest (acc * 10 + d)
    | Option.none => none

/-- Parse a string as a non-negative decimal integer; any non-digit
character (a sign included) rejects the whole string. -/
def parseNatStr (s : String) : Option Nat :=
  match s.data with
  | [] => none
  | l => parseNatAux l 0

/-- Modelled from the spec: parsing of the `depth` parameter by
`BlockListGetForm` (not in the provided sources).  "parses integer >= 0, or
the literal \"all\" -> unbounded. Default: 0".  `none` denotes unbounded. -/
def parseDepth : Option String → Except String (Option Nat)
  | Option.none => Except.ok (some 0)
  | some "all" => Except.ok none
  | some s =>
    match parseNatStr s with
    | some n => Except.ok (some n)
    | Option.none => Except.error "invalid depth"

/-- Modelled from the spec: parsing of the `nav_depth` parameter by
`BlockListGetForm` (not in the provided sources).  "parses to integer >= 0;
default 3". -/
def parseNavDepth : Option String → Except String Nat
  | Option.none => Except.ok 3
  | some s =>
    match parseNatStr s with
    | some n => Except.ok n
    | Option.none => Except.error "invalid nav_depth"

/-- Modelled from the spec: parsing of the `return_type` parameter by
`BlockListGetForm` (not in the provided sources).  "one of dict|list,
default dict". -/
def parseReturnType : Option String → Except String ReturnType
  | Option.none => Except.ok ReturnType.dict
  | some "dict" => Except.ok ReturnType.dict
  | some "list" => Except.ok ReturnType.list
  | some _ => Except.error "invalid return_type"

/-- Modelled from the spec: the `usage_key` field of `BlockListGetForm`
(not in the provided sources) is required. -/
def parseUsageKey : Option String → Except String String
  | Option.none => Except.error "usage_key required"
  | some s => if s = "" then Except.error "usage_key required" else Except.ok s

/-- Split a character list at commas, accumulating the current token in
reverse. -/
def splitCommaAux : List Char → List Char → List String
  | [], acc => [String.mk acc.reverse]
  | c :: rest, acc =>
    if c = ',' then String.mk acc.reverse :: splitCommaAux rest []
    else splitCommaAux rest (c :: acc)

/-- Split a string at commas. -/
def splitComma (s : String) : List String := splitCommaAux s.data []

/-- Modelled from the spec: comma-delimited set-of-tokens parsing used for
`block_counts` and `student_view_data`; unknown tokens are accepted. -/
def parseTokenList : Option String → List String
  | Option.none => []
  | some s => (splitComma s).filter (fun t => t ≠ "")

/-- Modelled from the spec: the recognized vocabulary of
`requested_fields`. -/
def recognizedFields : List String :=
  ["children", "graded", "format", "student_view_data",
   "student_view_multi_device", "student_view_url", "lms_web_url",
   "block_counts"]

/-- Modelled from the spec: `requested_fields` parsing — unrecognized
requested fields are ignored rather than rejected. -/
def parseRequestedFields (o : Option String) : List String :=
  (parseTokenList o).filter (fun t => t ∈ recognizedFields)

/-- The validated form output (`params.cleaned_data` in views.py). -/
structure CleanedData where
  usage_key : String
  user : User
  depth : Option Nat
  nav_depth : Nat
  block_counts : List String
  student_view_data : List String
  requested_fields : List String
  return_type : ReturnType
deriving DecidableEq, Repr

/-- Field errors contributed by one parse result. -/
def errOf (field : String) : Except String α → List (String × String)
  | Except.error m => [(field, m)]
  | Except.ok _ => []

/-- Modelled from the spec: `BlockListGetForm` (not in the provided
sources).  Validates every field and accumulates ALL field errors into one
structured validation error; succeeds only when every field parses. -/
def blockListGetForm (qd : QueryDict) (u : User) :
    Except (List (String × String)) CleanedData :=
  match parseUsageKey (qdGet qd "usage_key"), parseDepth (qdGet qd "depth"),
        parseNavDepth (qdGet qd "nav_depth"),
        parseReturnType (qdGet qd "return_type") with
  | Except.ok uk, Except.ok d, Except.ok nd, Except.ok rt =>
    Except.ok
      { usage_key := uk
        user := u
        depth := d
        nav_depth := nd
        block_counts := parseTokenList (qdGet qd "block_counts")
        student_view_data := parseTokenList (qdGet qd "student_view_data")
        requested_fields := parseRequestedFields (qdGet qd "requested_fields")
        return_type := rt }
  | uk, d, nd, rt =>
    Except.error
      (errOf "usage_key" uk ++ errOf "depth" d ++
       errOf "nav_depth" nd ++ errOf "return_type" rt)

/-- Modelled from the spec: one node of the raw content graph returned by
the content-graph provider — id, type, display name, and authored child
order. -/
inductive BlockTree where
  | node (id ty displayName : String) (children : List BlockTree)
deriving Repr

/-- Root id of a raw content tree. -/
def BlockTree.rootId : BlockTree → String
  | BlockTree.node i _ _ _ => i

/-- Modelled from the spec: a block of the transformed structure, carrying
any per-type descendant counts computed by the count aggregator. -/
inductive CTree where
  | node (id ty displayName : String) (counts : List (String × Nat))
      (children : List CTree)
deriving Repr

/-- Root id of a transformed block. -/
def CTree.rootId : CTree → String
  | CTree.node i _ _ _ _ => i

/-- Type tag of a transformed block. -/
def CTree.rootTy : CTree → String
  | CTree.node _ ty _ _ _ => ty

/-- Counts attached to a transformed block. -/
def CTree.rootCounts : CTree → List (String × Nat)
  | CTree.node _ _ _ cn _ => cn

/-- Immediate children of a transformed block. -/
def CTree.rootChildren : CTree → List CTree
  | CTree.node _ _ _ _ cs => cs

mutual
/-- Modelled from the spec: the Access Transformer.  A block failing the
access check is pruned together with its whole subtree, and its id is
removed from the parent's children; the root itself failing yields no
structure (the "forbidden" outcome). -/
def accessFilter (allowed : String → Bool) : BlockTree → Option BlockTree
  | BlockTree.node i ty dn cs =>
    if allowed i then some (BlockTree.node i ty dn (accessFilterList allowed cs))
    else none

/-- Access filtering over a sibling list: pruned blocks simply disappear
from the list (order of the survivors is preserved). -/
def accessFilterList (allowed : String → Bool) : List BlockTree → List BlockTree
  | [] => []
  | c :: cs =>
    match accessFilter allowed c with
    | some c2 => c2 :: accessFilterList allowed cs
    | Option.none => accessFilterList allowed cs
end

/-- Count looked up on an already-aggregated block (0 when absent). -/
def countFor (T : String) (c : CTree) : Nat :=
  match c.rootCounts.find? (fun p => p.1 == T) with
  | some p => p.2
  | Option.none => 0

mutual
/-- Modelled from the spec: the Count Aggregator.  For each type `T` in
`block_counts` it attaches, bottom-up, the count
`(1 if own type == T else 0) + sum of children's counts for T`, computed
over the access-filtered tree. -/
def attachCounts (types : List String) : BlockTree → CTree
  | BlockTree.node i ty dn cs =>
    let ccs := attachCountsList types cs
    CTree.node i ty dn
      (types.map (fun T =>
        (T, (if ty == T then 1 else 0) +
            (ccs.map (fun c => countFor T c)).sum)))
      ccs

/-- Count aggregation over a sibling list. -/
def attachCountsList (types : List String) : List BlockTree → List CTree
  | [] => []
  | c :: cs => attachCounts types c :: attachCountsList types cs
end

mutual
/-- Modelled from the spec: structural depth truncation performed by the
`BlocksAPITransformer`.  Blocks more than `d` levels below the root are
pruned entirely and their ids are removed from the parent's children list,
never left dangling. -/
def truncAt : Nat → CTree → CTree
  | 0, CTree.node i ty dn cn _ => CTree.node i ty dn cn []
  | Nat.succ d, CTree.node i ty dn cn cs => CTree.node i ty dn cn (truncAtList d cs)

/-- Depth truncation over a sibling list. -/
def truncAtList : Nat → List CTree → List CTree
  | _, [] => []
  | d, c :: cs => truncAt d c :: truncAtList d cs
end

/-- Modelled from the spec: the depth shaping of the transformed structure;
`none` (the literal "all") disables structural truncation. -/
def applyDepth : Option Nat → CTree → CTree
  | Option.none, t => t
  | some d, t => truncAt d t

/-- Modelled from the spec: the navigational collapsing of the
`BlocksAPITransformer` (spec section 4.2).  Blocks more than `nav_depth`
levels below the root are not returned as separate entries; following the
Block Graph invariant (spec section 3) that ids omitted by depth or
nav-depth truncation "must be dropped from children entirely, never left
dangling", the collapsed descendants' ids are removed from the boundary
blocks' children lists as well.  Unlike structural depth, `nav_depth` is
always a bound integer (default 3). -/
def navCollapse (nav_depth : Nat) (t : CTree) : CTree := truncAt nav_depth t

/-- A Transformer of the pipeline, as a closed set of tagged variants
executed in a fixed order (spec section 9).  `blocksAPI` is the
`BlocksAPITransformer` of views.py lines 131-136, constructed from the
request's `block_counts`, `student_view_data`, `depth` and `nav_depth`. -/
inductive Transformer where
  | accessT
  | navDepthT
  | blocksAPI (block_counts student_view_data : List String)
      (depth : Option Nat) (nav_depth : Nat)
deriving DecidableEq, Repr

/-- Modelled from the spec: the fixed LMS transformer chain imported by
views.py (access control, then navigation/depth shaping). -/
def LMS_COURSE_TRANSFORMERS : List Transformer :=
  [Transformer.accessT, Transformer.navDepthT]

/-- Failures of `get_course_blocks`: the modulestore's
`ItemNotFoundError`, or any other raised error (which views.py does not
catch). -/
inductive GcbError where
  | itemNotFound (msg : String)
  | otherError (msg : String)
deriving DecidableEq, Repr

/-- Parameters of the last `blocksAPI` transformer of a chain, if any. -/
def batParams (tfs : List Transformer) :
    Option (List String × List String × Option Nat × Nat) :=
  tfs.reverse.findSome? (fun t =>
    match t with
    | Transformer.blocksAPI a b c d => some (a, b, c, d)
    | _ => none)

/-- Modelled from the spec: `get_course_blocks` (not in the provided
sources).  Resolves the usage key against the content store (failing with
`ItemNotFoundError` when the root does not resolve), then runs the
transformer pipeline in order: access filtering, count aggregation over
the access-filtered tree (counts attached before any collapsing, per spec
section 4.2), navigational collapsing at the `nav_depth` of the
`BlocksAPITransformer`, then structural depth shaping — so when the two
truncations conflict, structural depth wins.  A root pruned by the access
transformer is the distinct "forbidden" outcome. -/
def gcbModel (store : List (String × BlockTree)) (allowed : String → Bool)
    (_u : User) (key : String) (tfs : List Transformer) :
    Except GcbError CTree :=
  match (store.filter (fun p => p.1 == key)).head? with
  | Option.none => Except.error (GcbError.itemNotFound key)
  | some p =>
    match accessFilter allowed p.2 with
    | Option.none => Except.error (GcbError.otherError "forbidden")
    | some t =>
      match batParams tfs with
      | Option.none => Except.error (GcbError.otherError "missing transformer")
      | some (bc, _svd, d, nd) =>
        Except.ok (applyDepth d (navCollapse nd (attachCounts bc t)))

/-- One serialized block record: id, type and display name are always
present; `children` (ids of immediate children) only when "children" is
among the requested fields; `block_counts` when the block's own type is in
the `block_counts` parameter. -/
structure BlockRecord where
  id : String
  btype : String
  display_name : String
  children : List String
  block_counts : List (String × Nat)
deriving DecidableEq, Repr

/-- Modelled from the spec: the record serialized for one block — id,
type and display name always; `children` (ids of immediate children) only
when "children" is a requested field; `block_counts` when the block's own
type is in the `block_counts` parameter (views.py response documentation,
lines 80-85). -/
def recordOf (cd : CleanedData) (i ty dn : String)
    (cn : List (String × Nat)) (cs : List CTree) : BlockRecord :=
  { id := i
    btype := ty
    display_name := dn
    children :=
      if "children" ∈ cd.requested_fields then cs.map CTree.rootId else []
    block_counts := if ty ∈ cd.block_counts then cn else [] }

mutual
/-- Modelled from the spec: `BlockSerializer` (not in the provided
sources).  It walks the final structure in pre-order, children in authored
order, and emits one record per surviving block.  Truncated descendants
were already removed from `children` by the transformers, so only ids of
emitted blocks appear in any `children` list. -/
def serializeTree (cd : CleanedData) : CTree → List BlockRecord
  | CTree.node i ty dn cn cs => recordOf cd i ty dn cn cs :: serializeForest cd cs

/-- Serialization of a sibling forest, preserving authored order. -/
def serializeForest (cd : CleanedData) : List CTree → List BlockRecord
  | [] => []
  | c :: cs => serializeTree cd c ++ serializeForest cd cs
end

/-- A response body: either the `dict` shape
`\x7broot: root id, blocks: id -> record\x7d` of `BlockDictSerializer`, or
the ordered record sequence of `BlockSerializer`. -/
inductive ResponseBody where
  | dictResp (root : String) (blocks : List BlockRecord)
  | listResp (records : List BlockRecord)
deriving DecidableEq, Repr

/-- The block records carried by a response body, in either mode. -/
def blocksOf : ResponseBody → List BlockRecord
  | ResponseBody.dictResp _ bs => bs
  | ResponseBody.listResp rs => rs

/-- Modelled from the spec: serializer dispatch of views.py lines 152-155
— `BlockDictSerializer` for `dict`, `BlockSerializer(many=True)` for
`list`, over the same per-block records. -/
def mkResponseBody (cd : CleanedData) (t : CTree) : ResponseBody :=
  match cd.return_type with
  | ReturnType.dict => ResponseBody.dictResp t.rootId (serializeTree cd t)
  | ReturnType.list => ResponseBody.listResp (serializeTree cd t)

/-- Outcome of one call of `CourseBlocks.list`: the raised
`ValidationError(params.errors)`, the raised `Http404`, a propagated
backend exception, or the serialized `Response`. -/
inductive ListOutcome where
  | validationError (errors : List (String × String))
  | http404 (msg : String)
  | backendError (msg : String)
  | response (body : ResponseBody)
deriving DecidableEq, Repr

/-- Observable effects of one call: the arguments of each
`get_course_blocks` call, and how many times a serializer was run. -/
structure Trace where
  gcbArgs : List (User × String × List Transformer)
  serializerRuns : Nat
deriving DecidableEq, Repr

/-- An incoming HTTP request: its GET query parameters and its
authenticated user. -/
structure Request where
  GET : QueryDict
  user : User

/-- Embedding of `CourseBlocks.list` (views.py lines 113-158), with
`get_course_blocks` abstracted as the argument `gcb`.  The body copies the
GET parameters, injects the URL-path usage key, validates the form (raising
`ValidationError(params.errors)` on failure), builds the transformer chain
`LMS_COURSE_TRANSFORMERS + [blocks_api_transformer]`, calls
`get_course_blocks` (mapping `ItemNotFoundError` to `Http404` and letting
any other exception propagate), and only then serializes per
`return_type`. -/
def courseBlocksList
    (gcb : User → String → List Transformer → Except GcbError CTree)
    (req : Request) (usage_key_string : String) : ListOutcome × Trace :=
  let rp := requestedParams req.GET usage_key_string
  match blockListGetForm rp req.user with
  | Except.error errs => (ListOutcome.validationError errs, ⟨[], 0⟩)
  | Except.ok cd =>
    let bat := Transformer.blocksAPI cd.block_counts cd.student_view_data
      cd.depth cd.nav_depth
    let tfs := LMS_COURSE_TRANSFORMERS ++ [bat]
    match gcb cd.user cd.usage_key tfs with
    | Except.error (GcbError.itemNotFound m) =>
      (ListOutcome.http404 ("Course block not found: " ++ m),
       ⟨[(cd.user, cd.usage_key, tfs)], 0⟩)
    | Except.error (GcbError.otherError m) =>
      (ListOutcome.backendError m, ⟨[(cd.user, cd.usage_key, tfs)], 0⟩)
    | Except.ok blocks =>
      (ListOutcome.response (mkResponseBody cd blocks),
       ⟨[(cd.user, cd.usage_key, tfs)], 1⟩)

/-! Mutable-state model of lines 124-125.  Django `QueryDict`s are heap
objects; `request.GET.copy()` allocates a fresh one and `update` mutates
only the copy.  The heap is a list of `QueryDict`s addressed by index. -/

/-- The heap of live `QueryDict` objects. -/
abbrev QDStore := List QueryDict

/-- Dereference a `QueryDict` reference. -/
def readQD (σ : QDStore) (r : Nat) : QueryDict := σ.getD r []

/-- The `copy()` method: allocates a fresh `QueryDict` holding the same
entries and returns its reference. -/
def qdCopyAlloc (σ : QDStore) (r : Nat) : QDStore × Nat :=
  (σ ++ [readQD σ r], σ.length)

/-- The `update` method: appends the given entries to the object behind
the reference, in place. -/
def qdUpdateAt (σ : QDStore) (r : Nat) (kvs : QueryDict) : QDStore :=
  σ.set r (readQD σ r ++ kvs)

/-- Lines 124-125 of views.py as heap steps: copy `request.GET`, then
update the copy with the URL-path usage key.  Returns the new heap and the
reference to `requested_params`. -/
def requestedParamsSteps (σ : QDStore) (getRef : Nat) (s : String) :
    QDStore × Nat :=
  let cr := qdCopyAlloc σ getRef
  (qdUpdateAt cr.1 cr.2 [("usage_key", s)], cr.2)

/-- The transformer chain views.py passes to `get_course_blocks`:
`LMS_COURSE_TRANSFORMERS + [blocks_api_transformer]` (lines 131-141). -/
def pipelineFor (cd : CleanedData) : List Transformer :=
  LMS_COURSE_TRANSFORMERS ++
    [Transformer.blocksAPI cd.block_counts cd.student_view_data cd.depth
      cd.nav_depth]

/-- Inversion of a successful form validation: each cleaned field is the
result of its parser on the corresponding query parameter. -/
theorem blockListGetForm_ok_inv (qd : QueryDict) (u : User) (cd : CleanedData)
    (h : blockListGetForm qd u = Except.ok cd) :
    parseUsageKey (qdGet qd "usage_key") = Except.ok cd.usage_key ∧
    parseDepth (qdGet qd "depth") = Except.ok cd.depth ∧
    parseNavDepth (qdGet qd "nav_depth") = Except.ok cd.nav_depth ∧
    parseReturnType (qdGet qd "return_type") = Except.ok cd.return_type ∧
    cd.user = u ∧
    cd.block_counts = parseTokenList (qdGet qd "block_counts") ∧
    cd.student_view_data = parseTokenList (qdGet qd "student_view_data") ∧
    cd.requested_fields = parseRequestedFields (qdGet qd "requested_fields") := by
  unfold blockListGetForm at h
  cases h1 : parseUsageKey (qdGet qd "usage_key") with
  | error e1 => rw [h1] at h; simp at h
  | ok uk =>
    cases h2 : parseDepth (qdGet qd "depth") with
    | error e2 => rw [h1, h2] at h; simp at h
    | ok d =>
      cases h3 : parseNavDepth (qdGet qd "nav_depth") with
      | error e3 => rw [h1, h2, h3] at h; simp at h
      | ok nd =>
        cases h4 : parseReturnType (qdGet qd "return_type") with
        | error e4 => rw [h1, h2, h3, h4] at h; simp at h
        | ok rt =>
          rw [h1, h2, h3, h4] at h
          simp at h
          subst h
          exact ⟨rfl, rfl, rfl, rfl, rfl, rfl, rfl, rfl⟩

/-- Claim C1.  For every request that passes validation, the transformer
chain handed to `get_course_blocks` is exactly
`LMS_COURSE_TRANSFORMERS + [BlocksAPITransformer(block_counts,
student_view_data, depth, nav_depth)]` — the fixed LMS chain followed by
the `BlocksAPITransformer` built from the request's cleaned parameters, as
its last element — and no other chain is ever used (the endpoint performs
exactly one `get_course_blocks` call, always with this chain). -/
theorem C1_pipeline_is_lms_then_blocks_api
    (gcb : User → String → List Transformer → Except GcbError CTree)
    (req : Request) (s : String) (cd : CleanedData)
    (hform : blockListGetForm (requestedParams req.GET s) req.user =
      Except.ok cd) :
    (courseBlocksList gcb req s).2.gcbArgs =
      [(cd.user, cd.usage_key, pipelineFor cd)] ∧
    (pipelineFor cd).getLast? =
      some (Transformer.blocksAPI cd.block_counts cd.student_view_data
        cd.depth cd.nav_depth) := by
  constructor
  · simp only [courseBlocksList]
    rw [hform]
    cases hg : gcb cd.user cd.usage_key (pipelineFor cd) with
    | error e =>
      cases e with
      | itemNotFound m => simp [pipelineFor] at hg ⊢; rw [hg]
      | otherError m => simp [pipelineFor] at hg ⊢; rw [hg]
    | ok t => simp [pipelineFor] at hg ⊢; rw [hg]
  · simp [pipelineFor, LMS_COURSE_TRANSFORMERS]

/-- Concrete cleaned data used by the C1 witness. -/
def cdW1 : CleanedData :=
  { usage_key := "block-v1:x", user := User.mk "u", depth := some 0,
    nav_depth := 3, block_counts := ["video"], student_view_data := [],
    requested_fields := [], return_type := ReturnType.dict }

/-- Concrete request used by the C1 witness. -/
def reqW1 : Request := Request.mk [("block_counts", "video")] (User.mk "u")

/-- Concrete `get_course_blocks` stand-in used by the C1 witness. -/
def gcbW1 : User → String → List Transformer → Except GcbError CTree :=
  fun _ _ _ => Except.error (GcbError.itemNotFound "x")

/-- Claim C1 witness at a concrete request. -/
theorem C1_pipeline_is_lms_then_blocks_api_witness :
    blockListGetForm (requestedParams reqW1.GET "block-v1:x") reqW1.user =
      Except.ok cdW1 ∧
    (courseBlocksList gcbW1 reqW1 "block-v1:x").2.gcbArgs =
      [(cdW1.user, cdW1.usage_key, pipelineFor cdW1)] := by
  refine ⟨by rfl, ?_⟩
  exact (C1_pipeline_is_lms_then_blocks_api gcbW1 reqW1 "block-v1:x"
    cdW1 (by rfl)).1

/-- Claim C2.  When form validation fails, the endpoint raises exactly the
single validation error carrying every field error the form accumulated,
`get_course_blocks` (and with it the transformer pipeline) is never
invoked, and no serializer runs. -/
theorem C2_validation_failure_short_circuits
    (gcb : User → String → List Transformer → Except GcbError CTree)
    (req : Request) (s : String) (errs : List (String × String))
    (hform : blockListGetForm (requestedParams req.GET s) req.user =
      Except.error errs) :
    courseBlocksList gcb req s =
      (ListOutcome.validationError errs, Trace.mk [] 0) := by
  simp only [courseBlocksList]
  rw [hform]

/-- Claim C2 witness: a request whose `depth` and `return_type` are both
invalid raises one validation error listing both field errors, with no
`get_course_blocks` call and no serializer run. -/
theorem C2_validation_failure_short_circuits_witness :
    blockListGetForm
      (requestedParams [("depth", "x"), ("return_type", "y")] "block-v1:x")
      (User.mk "u") =
      Except.error
        [("depth", "invalid depth"), ("return_type", "invalid return_type")] ∧
    courseBlocksList gcbW1
        (Request.mk [("depth", "x"), ("return_type", "y")] (User.mk "u"))
        "block-v1:x" =
      (ListOutcome.validationError
        [("depth", "invalid depth"), ("return_type", "invalid return_type")],
       Trace.mk [] 0) := by
  refine ⟨by rfl, ?_⟩
  exact C2_validation_failure_short_circuits gcbW1
    (Request.mk [("depth", "x"), ("return_type", "y")] (User.mk "u"))
    "block-v1:x" _ (by rfl)

/-- Claim C3.  When the validated root usage key does not resolve to an
existing block (`get_course_blocks` raises `ItemNotFoundError`), the
endpoint raises `Http404` — an outcome distinct by construction from a
validation error and from any success response — and no serializer runs,
so no partial or empty success response is ever produced. -/
theorem C3_unresolved_root_is_http404
    (gcb : User → String → List Transformer → Except GcbError CTree)
    (req : Request) (s : String) (cd : CleanedData) (m : String)
    (hform : blockListGetForm (requestedParams req.GET s) req.user =
      Except.ok cd)
    (hnf : gcb cd.user cd.usage_key (pipelineFor cd) =
      Except.error (GcbError.itemNotFound m)) :
    (courseBlocksList gcb req s).1 =
      ListOutcome.http404 ("Course block not found: " ++ m) ∧
    (∀ errs, (courseBlocksList gcb req s).1 ≠
      ListOutcome.validationError errs) ∧
    (∀ b, (courseBlocksList gcb req s).1 ≠ ListOutcome.response b) ∧
    (courseBlocksList gcb req s).2.serializerRuns = 0 := by
  have hmain : courseBlocksList gcb req s =
      (ListOutcome.http404 ("Course block not found: " ++ m),
       Trace.mk [(cd.user, cd.usage_key, pipelineFor cd)] 0) := by
    simp only [courseBlocksList]
    rw [hform]
    simp [pipelineFor] at hnf ⊢
    rw [hnf]
  rw [hmain]
  exact ⟨rfl, fun errs h => by simp at h, fun b h => by simp at h, rfl⟩

/-- Concrete `get_course_blocks` stand-in over an empty content store:
every usage key fails to resolve. -/
def gcbW3 : User → String → List Transformer → Except GcbError CTree :=
  gcbModel [] (fun _ => true)

/-- Claim C3 witness: a well-formed request whose root block does not
exist yields the `Http404` outcome and nothing else. -/
theorem C3_unresolved_root_is_http404_witness :
    blockListGetForm (requestedParams reqW1.GET "block-v1:x") reqW1.user =
      Except.ok cdW1 ∧
    gcbW3 cdW1.user cdW1.usage_key (pipelineFor cdW1) =
      Except.error (GcbError.itemNotFound "block-v1:x") ∧
    (courseBlocksList gcbW3 reqW1 "block-v1:x").1 =
      ListOutcome.http404 ("Course block not found: " ++ "block-v1:x") := by
  refine ⟨by rfl, by rfl, ?_⟩
  exact (C3_unresolved_root_is_http404 gcbW3 reqW1 "block-v1:x" cdW1
    "block-v1:x" (by rfl) (by rfl)).1

/-- Claim C4.  If block retrieval or any transformer fails — that is,
`get_course_blocks` raises, whatever the error — no serializer is ever
invoked and no response body is produced: the outcome is never a
`response`. -/
theorem C4_failure_never_serializes
    (gcb : User → String → List Transformer → Except GcbError CTree)
    (req : Request) (s : String) (cd : CleanedData) (e : GcbError)
    (hform : blockListGetForm (requestedParams req.GET s) req.user =
      Except.ok cd)
    (herr : gcb cd.user cd.usage_key (pipelineFor cd) = Except.error e) :
    (courseBlocksList gcb req s).2.serializerRuns = 0 ∧
    ∀ b, (courseBlocksList gcb req s).1 ≠ ListOutcome.response b := by
  cases e with
  | itemNotFound m =>
    have hmain : courseBlocksList gcb req s =
        (ListOutcome.http404 ("Course block not found: " ++ m),
         Trace.mk [(cd.user, cd.usage_key, pipelineFor cd)] 0) := by
      simp only [courseBlocksList]
      rw [hform]
      simp [pipelineFor] at herr ⊢
      rw [herr]
    rw [hmain]
    exact ⟨rfl, fun b h => by simp at h⟩
  | otherError m =>
    have hmain : courseBlocksList gcb req s =
        (ListOutcome.backendError m,
         Trace.mk [(cd.user, cd.usage_key, pipelineFor cd)] 0) := by
      simp only [courseBlocksList]
      rw [hform]
      simp [pipelineFor] at herr ⊢
      rw [herr]
    rw [hmain]
    exact ⟨rfl, fun b h => by simp at h⟩

/-- Concrete `get_course_blocks` stand-in whose transformer pipeline
fails with a backend error. -/
def gcbW4 : User → String → List Transformer → Except GcbError CTree :=
  fun _ _ _ => Except.error (GcbError.otherError "upstream data unavailable")

/-- Claim C4 witness: a failing pipeline yields no serializer run and no
response body at a concrete request. -/
theorem C4_failure_never_serializes_witness :
    blockListGetForm (requestedParams reqW1.GET "block-v1:x") reqW1.user =
      Except.ok cdW1 ∧
    gcbW4 cdW1.user cdW1.usage_key (pipelineFor cdW1) =
      Except.error (GcbError.otherError "upstream data unavailable") ∧
    ((courseBlocksList gcbW4 reqW1 "block-v1:x").2.serializerRuns = 0 ∧
     ∀ b, (courseBlocksList gcbW4 reqW1 "block-v1:x").1 ≠
       ListOutcome.response b) := by
  refine ⟨by rfl, by rfl, ?_⟩
  exact C4_failure_never_serializes gcbW4 reqW1 "block-v1:x" cdW1
    (GcbError.otherError "upstream data unavailable") (by rfl) (by rfl)

/-- Values of a key distribute over concatenation of query dicts. -/
theorem qdValues_append (a b : QueryDict) (k : String) :
    qdValues (a ++ b) k = qdValues a k ++ qdValues b k := by
  simp [qdValues, List.filter_append]

/-- After the usage-key injection of lines 124-125, item access on
`usage_key` always yields the URL-path value: the appended entry is last,
and Django's `QueryDict` returns the last value. -/
theorem qdGet_requestedParams_usage_key (g : QueryDict) (s : String) :
    qdGet (requestedParams g s) "usage_key" = some s := by
  simp [qdGet, requestedParams, qdValues_append, qdValues]

/-- The usage-key injection leaves every other parameter untouched. -/
theorem qdGet_requestedParams_ne (g : QueryDict) (s k : String)
    (hk : k ≠ "usage_key") :
    qdGet (requestedParams g s) k = qdGet g k := by
  have hb : (("usage_key" : String) == k) = false := by
    simp [hk.symm]
  simp [qdGet, requestedParams, qdValues_append, qdValues, hb]

/-- The form reads the raw parameters only through item access, so two
parameter dicts with identical item access validate identically. -/
theorem blockListGetForm_congr (qd1 qd2 : QueryDict) (u : User)
    (h : ∀ k, qdGet qd1 k = qdGet qd2 k) :
    blockListGetForm qd1 u = blockListGetForm qd2 u := by
  unfold blockListGetForm
  simp only [h]

/-- Claim C9.  Two requests that share the URL-path usage key and agree on
every query parameter other than `usage_key` behave identically: the
URL-path value unconditionally shadows any `usage_key` supplied in the
query string, so the outcome and the trace (the `get_course_blocks`
arguments included) coincide. -/
theorem C9_query_usage_key_is_ignored
    (gcb : User → String → List Transformer → Except GcbError CTree)
    (g1 g2 : QueryDict) (u : User) (s : String)
    (h : ∀ k, k ≠ "usage_key" → qdValues g1 k = qdValues g2 k) :
    courseBlocksList gcb (Request.mk g1 u) s =
      courseBlocksList gcb (Request.mk g2 u) s := by
  have hget : ∀ k, qdGet (requestedParams g1 s) k =
      qdGet (requestedParams g2 s) k := by
    intro k
    by_cases hk : k = "usage_key"
    · subst hk
      rw [qdGet_requestedParams_usage_key, qdGet_requestedParams_usage_key]
    · rw [qdGet_requestedParams_ne _ _ _ hk, qdGet_requestedParams_ne _ _ _ hk]
      unfold qdGet
      rw [h k hk]
  have hform := blockListGetForm_congr _ _ u hget
  simp only [courseBlocksList]
  rw [hform]

/-- Claim C9 witness: a request smuggling `usage_key=attacker` in the
query string is handled exactly like the same request without it. -/
theorem C9_query_usage_key_is_ignored_witness :
    (∀ k, k ≠ "usage_key" →
      qdValues [("usage_key", "attacker"), ("block_counts", "video")] k =
        qdValues [("block_counts", "video")] k) ∧
    courseBlocksList gcbW1
        (Request.mk [("usage_key", "attacker"), ("block_counts", "video")]
          (User.mk "u")) "block-v1:x" =
      courseBlocksList gcbW1
        (Request.mk [("block_counts", "video")] (User.mk "u")) "block-v1:x" := by
  have h : ∀ k, k ≠ "usage_key" →
      qdValues [("usage_key", "attacker"), ("block_counts", "video")] k =
        qdValues [("block_counts", "video")] k := by
    intro k hk
    have hb : (("usage_key" : String) == k) = false := by simp [hk.symm]
    simp [qdValues, hb]
  exact ⟨h, C9_query_usage_key_is_ignored gcbW1 _ _ (User.mk "u")
    "block-v1:x" h⟩

/-- Claim C10.  Lines 124-125 never mutate the incoming request's GET
parameters: `copy()` allocates a fresh object, the usage-key `update` hits
only that copy, and after both steps the object behind `request.GET` holds
exactly its original entries while the fresh `requested_params` object
holds the original entries plus the injected usage key. -/
theorem C10_request_get_not_mutated (σ : QDStore) (getRef : Nat) (s : String)
    (h : getRef < σ.length) :
    readQD (requestedParamsSteps σ getRef s).1 getRef = readQD σ getRef ∧
    (requestedParamsSteps σ getRef s).2 ≠ getRef ∧
    readQD (requestedParamsSteps σ getRef s).1
        (requestedParamsSteps σ getRef s).2 =
      requestedParams (readQD σ getRef) s := by
  refine ⟨?_, ?_, ?_⟩
  · simp only [requestedParamsSteps, qdCopyAlloc, qdUpdateAt, readQD]
    rw [List.getD_eq_getElem?_getD, List.getElem?_set_ne (Nat.ne_of_gt h)]
    simp [List.getD, List.getElem?_append, h]
  · simp only [requestedParamsSteps, qdCopyAlloc]
    exact Nat.ne_of_gt h
  · simp only [requestedParamsSteps, qdCopyAlloc, qdUpdateAt, readQD,
      requestedParams]
    simp [List.getD]

/-- Claim C10 witness at a concrete one-object heap. -/
theorem C10_request_get_not_mutated_witness :
    (0 : Nat) < ([ [("a", "1")] ] : QDStore).length ∧
    readQD (requestedParamsSteps [ [("a", "1")] ] 0 "k").1 0 = [("a", "1")] := by
  refine ⟨by decide, ?_⟩
  exact (C10_request_get_not_mutated [ [("a", "1")] ] 0 "k" (by decide)).1

mutual
/-- All blocks of a transformed structure, the root included, in
pre-order. -/
def CTree.subtrees : CTree → List CTree
  | CTree.node i ty dn cn cs =>
    CTree.node i ty dn cn cs :: CTree.subtreesList cs

/-- All blocks of a forest of transformed structures, in pre-order. -/
def CTree.subtreesList : List CTree → List CTree
  | [] => []
  | c :: cs => CTree.subtrees c ++ CTree.subtreesList cs
end

/-- Structural induction for `BlockTree` with the induction hypothesis
available for every member of the child list. -/
def BlockTree.inductionOn {P : BlockTree → Prop}
    (h : ∀ i ty dn cs, (∀ c, c ∈ cs → P c) → P (BlockTree.node i ty dn cs)) :
    (t : BlockTree) → P t
  | BlockTree.node i ty dn cs =>
    h i ty dn cs (fun c hc =>
      have : sizeOf c < sizeOf (BlockTree.node i ty dn cs) := by
        have hlt := List.sizeOf_lt_of_mem hc
        simp only [BlockTree.node.sizeOf_spec]
        omega
      BlockTree.inductionOn h c)
termination_by t => sizeOf t

/-- Structural induction for `CTree` with the induction hypothesis
available for every member of the child list. -/
def CTree.inductionOn {P : CTree → Prop}
    (h : ∀ i ty dn cn cs, (∀ c, c ∈ cs → P c) →
      P (CTree.node i ty dn cn cs)) :
    (t : CTree) → P t
  | CTree.node i ty dn cn cs =>
    h i ty dn cn cs (fun c hc =>
      have : sizeOf c < sizeOf (CTree.node i ty dn cn cs) := by
        have hlt := List.sizeOf_lt_of_mem hc
        simp only [CTree.node.sizeOf_spec]
        omega
      CTree.inductionOn h c)
termination_by t => sizeOf t

/-- Membership in the blocks of a forest comes from membership in the
blocks of one of its trees. -/
theorem mem_subtreesList {s : CTree} :
    ∀ {l : List CTree}, s ∈ CTree.subtreesList l ↔
      ∃ c ∈ l, s ∈ c.subtrees := by
  intro l
  induction l with
  | nil => simp [CTree.subtreesList]
  | cons c cs ih =>
    simp [CTree.subtreesList, List.mem_append, ih]

/-- Count aggregation over a sibling list is a pointwise map. -/
theorem attachCountsList_eq_map (types : List String) :
    ∀ cs : List BlockTree,
      attachCountsList types cs = cs.map (attachCounts types) := by
  intro cs
  induction cs with
  | nil => simp [attachCountsList]
  | cons c rest ih => simp [attachCountsList, ih]

/-- Looking a type up in a freshly built per-type count map returns the
value computed for it. -/
theorem find?_map_self (types : List String) (f : String → Nat)
    (T : String) (h : T ∈ types) :
    ((types.map (fun T2 => (T2, f T2))).find?
      (fun p => p.1 == T)) = some (T, f T) := by
  induction types with
  | nil => cases h
  | cons T2 rest ih =>
    by_cases he : T2 = T
    · subst he
      simp [List.find?]
    · have hT : T ∈ rest := by
        cases h with
        | head => exact absurd rfl he
        | tail _ h2 => exact h2
      have hb : (T2 == T) = false := by simp [he]
      simp [List.find?, hb, ih hT]

/-- Every block of a count-aggregated structure carries, for every
requested type, exactly its own-match indicator plus the sum of its
children's counts. -/
theorem countFor_attachCounts (types : List String) (T : String)
    (hT : T ∈ types) :
    ∀ t : BlockTree, countFor T (attachCounts types t) =
      (if (attachCounts types t).rootTy == T then 1 else 0) +
      (((attachCounts types t).rootChildren).map (countFor T)).sum := by
  intro t
  cases t with
  | node i ty dn cs =>
    simp only [attachCounts, countFor, CTree.rootCounts, CTree.rootTy,
      CTree.rootChildren]
    rw [find?_map_self types _ T hT]
    rfl

/-- Unfolding of the block list of a count-aggregated structure. -/
theorem subtrees_attachCounts (types : List String) (i ty dn : String)
    (cs : List BlockTree) :
    (attachCounts types (BlockTree.node i ty dn cs)).subtrees =
      attachCounts types (BlockTree.node i ty dn cs) ::
        CTree.subtreesList (attachCountsList types cs) := by
  simp [attachCounts, CTree.subtrees]

/-- Claim C5.  In the count-aggregated structure (counts are computed over
the access-filtered tree, before depth collapsing, per the spec), every
block's `block_counts[T]`, for every type `T` of the request's
`block_counts` set, equals `(1 if the block's own type is T else 0)` plus
the sum of `block_counts[T]` over its immediate surviving children. -/
theorem C5_block_counts_recurrence (types : List String) (t : BlockTree) :
    ∀ s ∈ (attachCounts types t).subtrees, ∀ T ∈ types,
      countFor T s =
        (if s.rootTy == T then 1 else 0) +
        (s.rootChildren.map (countFor T)).sum := by
  refine BlockTree.inductionOn
    (P := fun t2 => ∀ s ∈ (attachCounts types t2).subtrees, ∀ T ∈ types,
      countFor T s =
        (if s.rootTy == T then 1 else 0) +
        (s.rootChildren.map (countFor T)).sum) ?_ t
  intro i ty dn cs ih s hs T hT
  rw [subtrees_attachCounts] at hs
  cases List.mem_cons.mp hs with
  | inl he => rw [he]; exact countFor_attachCounts types T hT _
  | inr hmem =>
    rw [mem_subtreesList] at hmem
    obtain ⟨c2, hc2, hsc⟩ := hmem
    rw [attachCountsList_eq_map] at hc2
    obtain ⟨c, hc, rfl⟩ := List.mem_map.mp hc2
    exact ih c hc s hsc T hT

/-- Concrete raw subtree for the C5 witness: a chapter holding one video
sequential and one problem sequential (the spec's worked example). -/
def chW5 : BlockTree :=
  BlockTree.node "ch1" "chapter" "Ch1"
    [BlockTree.node "seq1" "sequential" "S1"
      [BlockTree.node "v1" "video" "V" []],
     BlockTree.node "seq2" "sequential" "S2"
      [BlockTree.node "p1" "problem" "P" []]]

/-- Concrete raw course tree for the C5 witness. -/
def rawW5 : BlockTree := BlockTree.node "course1" "course" "Course" [chW5]

/-- Claim C5 witness: on the spec's worked example with
`block_counts=video,problem`, the chapter block satisfies the recurrence
for `T = "video"`. -/
theorem C5_block_counts_recurrence_witness :
    attachCounts ["video", "problem"] chW5 ∈
      (attachCounts ["video", "problem"] rawW5).subtrees ∧
    ("video" : String) ∈ ["video", "problem"] ∧
    countFor "video" (attachCounts ["video", "problem"] chW5) =
      (if (attachCounts ["video", "problem"] chW5).rootTy == "video"
        then 1 else 0) +
      (((attachCounts ["video", "problem"] chW5).rootChildren).map
        (countFor "video")).sum := by
  have h1 : attachCounts ["video", "problem"] chW5 ∈
      (attachCounts ["video", "problem"] rawW5).subtrees := by
    rw [rawW5, subtrees_attachCounts]
    refine List.mem_cons_of_mem _ ?_
    rw [mem_subtreesList]
    refine ⟨attachCounts ["video", "problem"] chW5, ?_, ?_⟩
    · rw [attachCountsList_eq_map]
      simp
    · rw [chW5, subtrees_attachCounts]
      left
  have h2 : ("video" : String) ∈ ["video", "problem"] := by simp
  exact ⟨h1, h2, C5_block_counts_recurrence ["video", "problem"] rawW5
    (attachCounts ["video", "problem"] chW5) h1 "video" h2⟩

/-- Serializing any block yields at least its own record, first, carrying
its id. -/
theorem serializeTree_self_mem (cd : CleanedData) (t : CTree) :
    ∃ r ∈ serializeTree cd t, r.id = t.rootId := by
  cases t with
  | node i ty dn cn cs =>
    refine ⟨recordOf cd i ty dn cn cs, ?_, rfl⟩
    simp [serializeTree]

/-- Membership in a serialized forest comes from membership in one tree's
serialization. -/
theorem mem_serializeForest (cd : CleanedData) (r : BlockRecord) :
    ∀ l : List CTree, r ∈ serializeForest cd l ↔
      ∃ c ∈ l, r ∈ serializeTree cd c := by
  intro l
  induction l with
  | nil => simp [serializeForest]
  | cons c cs ih => simp [serializeForest, List.mem_append, ih]

/-- No serialized output dangles: every id listed in a record's `children`
is the id of some record of the same serialization. -/
theorem serializeTree_no_dangling (cd : CleanedData) (t : CTree) :
    ∀ r ∈ serializeTree cd t, ∀ cid ∈ r.children,
      ∃ r2 ∈ serializeTree cd t, r2.id = cid := by
  refine CTree.inductionOn
    (P := fun t2 => ∀ r ∈ serializeTree cd t2, ∀ cid ∈ r.children,
      ∃ r2 ∈ serializeTree cd t2, r2.id = cid) ?_ t
  intro i ty dn cn cs ih r hr cid hcid
  have hr2 : r = recordOf cd i ty dn cn cs ∨ r ∈ serializeForest cd cs := by
    simpa [serializeTree] using hr
  cases hr2 with
  | inl he =>
    subst he
    simp only [recordOf] at hcid
    by_cases hf : "children" ∈ cd.requested_fields
    · rw [if_pos hf] at hcid
      obtain ⟨c, hc, hcr⟩ := List.mem_map.mp hcid
      obtain ⟨r2, hr2m, hr2i⟩ := serializeTree_self_mem cd c
      refine ⟨r2, ?_, by rw [hr2i, hcr]⟩
      simp only [serializeTree]
      exact List.mem_cons_of_mem _ ((mem_serializeForest cd r2 cs).mpr ⟨c, hc, hr2m⟩)
    · rw [if_neg hf] at hcid
      cases hcid
  | inr hmem =>
    obtain ⟨c, hc, hrc⟩ := (mem_serializeForest cd r cs).mp hmem
    obtain ⟨r2, hr2m, hr2i⟩ := ih c hc r hrc cid hcid
    refine ⟨r2, ?_, hr2i⟩
    simp only [serializeTree]
    exact List.mem_cons_of_mem _ ((mem_serializeForest cd r2 cs).mpr ⟨c, hc, hr2m⟩)

/-- Claim C6.  For every request served through the modelled pipeline,
every block id appearing in any output record's `children` list is itself
the id of an output record: ids pruned by the access transformer or
omitted by depth truncation were removed from the `children` lists
entirely, never left dangling. -/
theorem C6_no_dangling_children
    (store : List (String × BlockTree)) (allowed : String → Bool)
    (req : Request) (s : String) (body : ResponseBody)
    (h : (courseBlocksList (gcbModel store allowed) req s).1 =
      ListOutcome.response body) :
    ∀ r ∈ blocksOf body, ∀ cid ∈ r.children,
      ∃ r2 ∈ blocksOf body, r2.id = cid := by
  simp only [courseBlocksList] at h
  cases hf : blockListGetForm (requestedParams req.GET s) req.user with
  | error errs => rw [hf] at h; simp at h
  | ok cd =>
    rw [hf] at h
    dsimp only at h
    cases hg : gcbModel store allowed cd.user cd.usage_key
        (LMS_COURSE_TRANSFORMERS ++
          [Transformer.blocksAPI cd.block_counts cd.student_view_data
            cd.depth cd.nav_depth]) with
    | error e =>
      cases e with
      | itemNotFound m => rw [hg] at h; simp at h
      | otherError m => rw [hg] at h; simp at h
    | ok t =>
      rw [hg] at h
      simp only [ListOutcome.response.injEq] at h
      subst h
      have hb : blocksOf (mkResponseBody cd t) = serializeTree cd t := by
        cases hrt : cd.return_type <;> simp [mkResponseBody, blocksOf, hrt]
      rw [hb]
      exact serializeTree_no_dangling cd t

/-- Concrete content store for the C6 and C8 witnesses: one course block
with one chapter child. -/
def storeW : List (String × BlockTree) :=
  [("r", BlockTree.node "r" "course" "R"
    [BlockTree.node "c" "chapter" "C" []])]

/-- Concrete content store for the C6 witness: a three-level course, so a
binding `nav_depth` has something to collapse. -/
def storeW6 : List (String × BlockTree) :=
  [("r", BlockTree.node "r" "course" "R"
    [BlockTree.node "c" "chapter" "C"
      [BlockTree.node "g" "sequential" "G" []]])]

/-- Concrete request for the C6 witness: `depth=all` so structural depth
prunes nothing, `nav_depth=1` so navigational collapsing removes the
sequential block `g`, and `children` is requested — `g` must then be
absent from the chapter's `children` as well, never left dangling. -/
def reqW6 : Request :=
  Request.mk
    [("depth", "all"), ("nav_depth", "1"),
     ("requested_fields", "children")] (User.mk "u")

/-- Claim C6 witness: at a concrete request whose nav-depth collapsing
omits the sequential block, the output lists the surviving chapter in the
root's `children`, drops the collapsed block's id entirely, and has no
dangling children ids. -/
theorem C6_no_dangling_children_witness :
    (courseBlocksList (gcbModel storeW6 (fun _ => true)) reqW6 "r").1 =
      ListOutcome.response
        (ResponseBody.dictResp "r"
          [{ id := "r", btype := "course", display_name := "R",
             children := ["c"], block_counts := [] },
           { id := "c", btype := "chapter", display_name := "C",
             children := [], block_counts := [] }]) ∧
    (∀ r ∈ blocksOf
        (ResponseBody.dictResp "r"
          [{ id := "r", btype := "course", display_name := "R",
             children := ["c"], block_counts := [] },
           { id := "c", btype := "chapter", display_name := "C",
             children := [], block_counts := [] }]),
      ∀ cid ∈ r.children,
        ∃ r2 ∈ blocksOf
          (ResponseBody.dictResp "r"
            [{ id := "r", btype := "course", display_name := "R",
               children := ["c"], block_counts := [] },
             { id := "c", btype := "chapter", display_name := "C",
               children := [], block_counts := [] }]), r2.id = cid) := by
  refine ⟨by rfl, ?_⟩
  exact C6_no_dangling_children storeW6 (fun _ => true) reqW6 "r" _ (by rfl)

/-- Record ids of a serialized forest are the block ids of that forest,
in the same pre-order. -/
theorem serializeForest_ids (cd : CleanedData) :
    ∀ cs : List CTree,
      (∀ c ∈ cs, (serializeTree cd c).map BlockRecord.id =
        (CTree.subtrees c).map CTree.rootId) →
      (serializeForest cd cs).map BlockRecord.id =
        (CTree.subtreesList cs).map CTree.rootId := by
  intro cs h
  induction cs with
  | nil => simp [serializeForest, CTree.subtreesList]
  | cons c rest ih =>
    simp only [serializeForest, CTree.subtreesList, List.map_append]
    rw [h c (List.mem_cons_self c rest),
      ih (fun c2 hc2 => h c2 (List.mem_cons_of_mem c hc2))]

/-- The serialization emits exactly one record per surviving block: record
ids equal the block ids of the structure, in the same pre-order. -/
theorem serializeTree_ids (cd : CleanedData) (t : CTree) :
    (serializeTree cd t).map BlockRecord.id =
      (CTree.subtrees t).map CTree.rootId := by
  refine CTree.inductionOn
    (P := fun t2 => (serializeTree cd t2).map BlockRecord.id =
      (CTree.subtrees t2).map CTree.rootId) ?_ t
  intro i ty dn cn cs ih
  simp only [serializeTree, CTree.subtrees, List.map_cons]
  rw [serializeForest_ids cd cs ih]
  simp [recordOf, CTree.rootId]

/-- Claim C7.  For every valid request whose blocks are retrieved, the
response body is selected by `return_type`: `dict` yields
`\x7broot: root id, blocks: one record per surviving block\x7d`, `list`
yields the ordered record sequence; the `blocks` mapping covers every
surviving block (record ids are exactly the block ids); and an absent
`return_type` parameter defaults to `dict`. -/
theorem C7_return_type_selects_shape
    (gcb : User → String → List Transformer → Except GcbError CTree)
    (req : Request) (s : String) (cd : CleanedData) (t : CTree)
    (hform : blockListGetForm (requestedParams req.GET s) req.user =
      Except.ok cd)
    (hok : gcb cd.user cd.usage_key (pipelineFor cd) = Except.ok t) :
    (courseBlocksList gcb req s).1 =
      ListOutcome.response (mkResponseBody cd t) ∧
    (cd.return_type = ReturnType.dict →
      mkResponseBody cd t =
        ResponseBody.dictResp t.rootId (serializeTree cd t)) ∧
    (cd.return_type = ReturnType.list →
      mkResponseBody cd t = ResponseBody.listResp (serializeTree cd t)) ∧
    (serializeTree cd t).map BlockRecord.id =
      (CTree.subtrees t).map CTree.rootId ∧
    (qdGet (requestedParams req.GET s) "return_type" = none →
      cd.return_type = ReturnType.dict) := by
  refine ⟨?_, ?_, ?_, serializeTree_ids cd t, ?_⟩
  · simp only [courseBlocksList]
    rw [hform]
    simp [pipelineFor] at hok ⊢
    rw [hok]
  · intro h; simp [mkResponseBody, h]
  · intro h; simp [mkResponseBody, h]
  · intro h
    obtain ⟨_, _, _, hrt, _⟩ := blockListGetForm_ok_inv _ _ _ hform
    rw [h] at hrt
    simp [parseReturnType] at hrt
    exact hrt.symm

/-- Concrete cleaned data for the C7 witness (all parameters defaulted). -/
def cdW7 : CleanedData :=
  { usage_key := "r", user := User.mk "u", depth := some 0, nav_depth := 3,
    block_counts := [], student_view_data := [], requested_fields := [],
    return_type := ReturnType.dict }

/-- The transformed structure the modelled pipeline produces for the C7
witness request. -/
def tW7 : CTree := CTree.node "r" "course" "R" [] []

/-- Claim C7 witness: a request without `return_type` is served in `dict`
shape. -/
theorem C7_return_type_selects_shape_witness :
    blockListGetForm (requestedParams [] "r") (User.mk "u") =
      Except.ok cdW7 ∧
    gcbModel storeW (fun _ => true) cdW7.user cdW7.usage_key
      (pipelineFor cdW7) = Except.ok tW7 ∧
    (courseBlocksList (gcbModel storeW (fun _ => true))
      (Request.mk [] (User.mk "u")) "r").1 =
      ListOutcome.response (mkResponseBody cdW7 tW7) := by
  refine ⟨by rfl, by rfl, ?_⟩
  exact (C7_return_type_selects_shape (gcbModel storeW (fun _ => true))
    (Request.mk [] (User.mk "u")) "r" cdW7 tW7 (by rfl) (by rfl)).1

/-- Count aggregation preserves a block's id. -/
theorem rootId_attachCounts (types : List String) (t : BlockTree) :
    (attachCounts types t).rootId = t.rootId := by
  cases t with
  | node i ty dn cs => simp [attachCounts, CTree.rootId, BlockTree.rootId]

/-- Truncation at level zero sees only the root block, so an earlier,
deeper truncation makes no difference to it. -/
theorem truncAt_zero_truncAt (n : Nat) (x : CTree) :
    truncAt 0 (truncAt n x) = truncAt 0 x := by
  cases x with
  | node i ty dn cn cs => cases n <;> simp [truncAt]

/-- At structural depth 0, navigational collapsing cannot add anything:
structural depth wins and only the root block survives. -/
theorem applyDepth_zero_navCollapse (nd : Nat) (x : CTree) :
    applyDepth (some 0) (navCollapse nd x) = truncAt 0 x := by
  simp [applyDepth, navCollapse, truncAt_zero_truncAt]

/-- Depth truncation at level zero keeps the root block, its counts
included, and drops its children entirely. -/
theorem truncAt_zero (t : CTree) :
    ∃ dn2, truncAt 0 t =
      CTree.node t.rootId t.rootTy dn2 t.rootCounts [] := by
  cases t with
  | node i ty dn cn cs =>
    exact ⟨dn, by simp [truncAt, CTree.rootId, CTree.rootTy, CTree.rootCounts]⟩

/-- A childless block serializes to exactly its own record. -/
theorem serializeTree_root_only (cd : CleanedData) (i ty dn : String)
    (cn : List (String × Nat)) :
    serializeTree cd (CTree.node i ty dn cn []) =
      [recordOf cd i ty dn cn []] := by
  simp [serializeTree, serializeForest]

/-- A record serialized from a childless block lists no children ids. -/
theorem recordOf_nil_children (cd : CleanedData) (i ty dn : String)
    (cn : List (String × Nat)) :
    (recordOf cd i ty dn cn []).children = [] := by
  simp [recordOf]

/-- Claim C8.  When `depth` is absent it defaults to 0, and such a request
without "children" among the requested fields returns exactly one block —
the root — whichever return shape is selected: the response is the
serialization of the depth-0 truncation, and its block list is one record
whose id is the root's id and whose `children` list is empty. -/
theorem C8_depth_defaults_to_zero_root_only
    (store : List (String × BlockTree)) (allowed : String → Bool)
    (req : Request) (s : String) (cd : CleanedData)
    (pr : String × BlockTree) (t : BlockTree)
    (hform : blockListGetForm (requestedParams req.GET s) req.user =
      Except.ok cd)
    (hd : qdGet (requestedParams req.GET s) "depth" = none)
    (_hch : "children" ∉ cd.requested_fields)
    (hfound : (store.filter (fun p => p.1 == cd.usage_key)).head? = some pr)
    (hacc : accessFilter allowed pr.2 = some t) :
    cd.depth = some 0 ∧
    (courseBlocksList (gcbModel store allowed) req s).1 =
      ListOutcome.response
        (mkResponseBody cd (truncAt 0 (attachCounts cd.block_counts t))) ∧
    ∃ r : BlockRecord, r.id = t.rootId ∧ r.children = [] ∧
      blocksOf (mkResponseBody cd
        (truncAt 0 (attachCounts cd.block_counts t))) = [r] := by
  obtain ⟨_, hdep, _, _, _⟩ := blockListGetForm_ok_inv _ _ _ hform
  rw [hd] at hdep
  simp [parseDepth] at hdep
  have hg : gcbModel store allowed cd.user cd.usage_key
      (LMS_COURSE_TRANSFORMERS ++
        [Transformer.blocksAPI cd.block_counts cd.student_view_data
          cd.depth cd.nav_depth]) =
      Except.ok (truncAt 0 (attachCounts cd.block_counts t)) := by
    unfold gcbModel
    rw [hfound]
    dsimp only
    rw [hacc]
    dsimp only
    rw [show batParams (LMS_COURSE_TRANSFORMERS ++
        [Transformer.blocksAPI cd.block_counts cd.student_view_data
          cd.depth cd.nav_depth]) =
      some (cd.block_counts, cd.student_view_data, cd.depth, cd.nav_depth)
      from rfl]
    dsimp only
    rw [← hdep]
    exact congrArg Except.ok (applyDepth_zero_navCollapse cd.nav_depth _)
  refine ⟨hdep.symm, ?_, ?_⟩
  · simp only [courseBlocksList]
    rw [hform]
    dsimp only
    rw [hg]
  · obtain ⟨dn2, htr⟩ := truncAt_zero (attachCounts cd.block_counts t)
    rw [htr]
    refine ⟨recordOf cd (attachCounts cd.block_counts t).rootId
      (attachCounts cd.block_counts t).rootTy dn2
      (attachCounts cd.block_counts t).rootCounts [], ?_, ?_, ?_⟩
    · simp [recordOf, rootId_attachCounts]
    · exact recordOf_nil_children cd _ _ _ _
    · cases hrt : cd.return_type <;>
        simp [mkResponseBody, blocksOf, hrt, serializeTree_root_only]

/-- Claim C8 witness: a concrete depth-less request over the two-block
store returns exactly the root record. -/
theorem C8_depth_defaults_to_zero_root_only_witness :
    blockListGetForm (requestedParams [] "r") (User.mk "u") =
      Except.ok cdW7 ∧
    qdGet (requestedParams [] "r") "depth" = none ∧
    ("children" ∉ cdW7.requested_fields) ∧
    (storeW.filter (fun p => p.1 == cdW7.usage_key)).head? =
      some ("r", BlockTree.node "r" "course" "R"
        [BlockTree.node "c" "chapter" "C" []]) ∧
    accessFilter (fun _ => true)
      (BlockTree.node "r" "course" "R"
        [BlockTree.node "c" "chapter" "C" []]) =
      some (BlockTree.node "r" "course" "R"
        [BlockTree.node "c" "chapter" "C" []]) ∧
    (cdW7.depth = some 0 ∧
     (courseBlocksList (gcbModel storeW (fun _ => true))
        (Request.mk [] (User.mk "u")) "r").1 =
       ListOutcome.response
         (mkResponseBody cdW7
           (truncAt 0 (attachCounts cdW7.block_counts
             (BlockTree.node "r" "course" "R"
               [BlockTree.node "c" "chapter" "C" []])))) ∧
     ∃ r : BlockRecord,
       r.id = (BlockTree.node "r" "course" "R"
         [BlockTree.node "c" "chapter" "C" []]).rootId ∧
       r.children = [] ∧
       blocksOf (mkResponseBody cdW7
         (truncAt 0 (attachCounts cdW7.block_counts
           (BlockTree.node "r" "course" "R"
             [BlockTree.node "c" "chapter" "C" []])))) = [r]) := by
  refine ⟨by rfl, by rfl, by simp [cdW7], by rfl, ?_, ?_⟩
  · simp [accessFilter, accessFilterList]
  · exact C8_depth_defaults_to_zero_root_only storeW (fun _ => true)
      (Request.mk [] (User.mk "u")) "r" cdW7 _ _ (by rfl) (by rfl)
      (by simp [cdW7]) (by rfl) (by simp [accessFilter, accessFilterList])

end CourseBlocksApi
